import Mathlib

/-!
Shallow embedding of maintainers/scripts/update.py: a batch runner that
executes per-package update scripts in a thread pool and optionally commits
the resulting changes from per-worker git worktrees back onto the starting
branch. Python exceptions are modelled explicitly with an `Exc` type, and
side effects (lock operations, git commands, log writes, status prints) are
recorded as event traces.
-/

deriving instance DecidableEq for Except

namespace UpdatePy

/-- Change record parsed from the update script output (one JSON object):
attribute path, old and new version strings, and the list of touched files. -/
structure Change where
  attrPath : String
  oldVersion : String
  newVersion : String
  files : List String
deriving DecidableEq, Repr

/-- Package entry from the JSON package list: display name, short identifier
used for the log filename, and the supported feature flags. The update script
command line itself is irrelevant to the control flow modelled here; its
outcome is supplied as an execution environment parameter. -/
structure Package where
  name : String
  pname : String
  supportedFeatures : List String
deriving DecidableEq, Repr

/-- Git commands issued by the script, with the working directory recorded
where the source passes cwd (cherry-pick is run with no cwd, hence in the
repository root on the branch the run started from). -/
inductive GitCmd
  | add (files : List String) (cwd : Option String)
  | commit (msg : String) (cwd : Option String)
  | cherryPick (branch : String) (cwd : Option String)
  | worktreeAdd (branch dir : String)
  | worktreeRemove (dir : String)
  | branchDelete (branch : String)
deriving DecidableEq, Repr

/-- Observable events of the run: lock acquire and release on a workspace
guard, git command invocations, status lines printed to stderr, and log file
writes. -/
inductive Ev
  | acquire
  | release
  | git (c : GitCmd)
  | status (s : String)
  | writeLog (file content : String)
deriving DecidableEq, Repr

/-- Python exceptions relevant to the script. CalledProcessError carries the
captured stdout, which is present for the update script (run with
stdout=PIPE) but None for the git commands in commit_changes (run without
capture). -/
inductive Exc
  | calledProcessError (stdout : Option String)
  | jsonDecodeError
  | systemExit (code : Option Nat)
  | unboundLocal (v : String)
  | attributeError (msg : String)
deriving DecidableEq, Repr

/-- Completed process value returned by run_update_script on success: the
captured standard output. -/
structure ProcResult where
  stdout : String
deriving DecidableEq, Repr

/-- Test from update.py lines 24 and 56 and 75: commit mode is on and the
package supports the commit feature. -/
def commitCapable (pkg : Package) (commit : Bool) : Bool :=
  commit && pkg.supportedFeatures.contains ("commit")

/-- Model of run_update_script (update.py lines 21-32). When commit-capable,
the worker looks up its worktree and acquires the workspace lock before
starting the external process (the thread assignment recorded into
package["thread"] is modelled at the run level by the env assignment).
The external process outcome is a parameter: exit zero with captured stdout,
or CalledProcessError carrying that stdout (check=True with stdout=PIPE). -/
def run_update_script (pkg : Package) (commit : Bool) (execOk : Bool)
    (execOut : String) : List Ev × Except Exc ProcResult :=
  let pre : List Ev :=
    (if commitCapable pkg commit then [Ev.acquire] else [])
      ++ [Ev.status (" - " ++ pkg.name ++ ": UPDATING ...")]
  if execOk then (pre, Except.ok (ProcResult.mk execOut))
  else (pre, Except.error (Exc.calledProcessError (some execOut)))

/-- Commit message format from update.py line 49. -/
def commitMessage (c : Change) : String :=
  c.attrPath ++ ": " ++ c.oldVersion ++ " → " ++ c.newVersion

/-- Loop body of commit_changes (update.py lines 47-51): for each change,
git add the listed files in the worktree, git commit with the formatted
message in the worktree, then git cherry-pick the worktree branch with no
cwd (repository root). Each command is fallible (check=True, no capture, so
a failure raises CalledProcessError with stdout None); gitOk gives the
outcome of the n-th git command issued for this package. -/
def commitLoop (worktree branch : String) (gitOk : Nat → Bool) :
    List Change → Nat → List Ev × Except Exc Unit
  | [], _ => ([], Except.ok ())
  | c :: rest, n =>
    let e1 := Ev.git (GitCmd.add c.files (some worktree))
    if gitOk n then
      let e2 := Ev.git (GitCmd.commit (commitMessage c) (some worktree))
      if gitOk (n + 1) then
        let e3 := Ev.git (GitCmd.cherryPick branch none)
        if gitOk (n + 2) then
          let r := commitLoop worktree branch gitOk rest (n + 3)
          (e1 :: e2 :: e3 :: r.1, r.2)
        else ([e1, e2, e3], Except.error (Exc.calledProcessError none))
      else ([e1, e2], Except.error (Exc.calledProcessError none))
    else ([e1], Except.error (Exc.calledProcessError none))

/-- Model of commit_changes (update.py lines 45-51): json.loads of the
captured stdout (JSONDecodeError when it is not valid structured data),
then the per-change loop. The JSON decoder is an external collaborator and
is passed as the parse parameter. -/
def commit_changes (worktree branch : String) (stdoutStr : String)
    (parse : String → Option (List Change)) (gitOk : Nat → Bool) :
    List Ev × Except Exc Unit :=
  match parse stdoutStr with
  | none => ([], Except.error Exc.jsonDecodeError)
  | some changes => commitLoop worktree branch gitOk changes 0

/-- Banner line from update.py lines 64 and 70. -/
def errorBanner (pkg : Package) : String :=
  "--- SHOWING ERROR LOG FOR " ++ pkg.name ++ " ----------------------"

/-- Model of the except clause of merge_changes (update.py lines 61-73):
only CalledProcessError is caught. Lines 62-65 print the error header, line
66 decodes e.stdout (AttributeError when stdout is None, i.e. when the
failed command was a git command run without capture; this happens before
the log file is written), lines 67-68 write the log file named after the
short identifier, line 73 raises SystemExit(1) unless keep_going. Any other
exception is not caught and propagates unchanged. -/
def mergeExcept (pkg : Package) (keep_going : Bool) (e : Exc) :
    List Ev × Except Exc Unit :=
  match e with
  | Exc.calledProcessError stdoutOpt =>
    let head : List Ev :=
      [Ev.status (" - " ++ pkg.name ++ ": ERROR"), Ev.status (""),
       Ev.status (errorBanner pkg), Ev.status ("")]
    match stdoutOpt with
    | none => (head, Except.error (Exc.attributeError ("stdout is None")))
    | some s =>
      let evs := head ++
        [Ev.status s, Ev.writeLog (pkg.pname ++ ".log") s,
         Ev.status (""), Ev.status (errorBanner pkg)]
      if keep_going then (evs, Except.ok ())
      else (evs, Except.error (Exc.systemExit (some 1)))
  | e2 => ([], Except.error e2)

/-- Model of the try body of merge_changes (update.py lines 54-60). The
middle component records whether the local variable lock was assigned (line
58 runs only when the future succeeded and the package is commit-capable);
the finally block can only release the lock when it was assigned. -/
def mergeTry (pkg : Package) (futureResult : Except Exc ProcResult)
    (commit : Bool) (worktree branch : String)
    (parse : String → Option (List Change)) (gitOk : Nat → Bool) :
    List Ev × Bool × Except Exc Unit :=
  match futureResult with
  | Except.error e => ([], false, Except.error e)
  | Except.ok execution =>
    if commitCapable pkg commit then
      let r := commit_changes worktree branch execution.stdout parse gitOk
      match r.2 with
      | Except.error e => (r.1, true, Except.error e)
      | Except.ok _ =>
        (r.1 ++ [Ev.status (" - " ++ pkg.name ++ ": DONE.")], true,
         Except.ok ())
    else
      ([Ev.status (" - " ++ pkg.name ++ ": DONE.")], false, Except.ok ())

/-- Model of the finally block of merge_changes (update.py lines 74-76):
when commit-capable, lock.release() runs. If the local lock was never
assigned (the try body failed before line 58), the reference raises
UnboundLocalError, which replaces the pending exception and means the lock
acquired in run_update_script is never released. -/
def mergeFinally (pkg : Package) (commit : Bool) (lockBound : Bool)
    (pending : Except Exc Unit) : List Ev × Except Exc Unit :=
  if commitCapable pkg commit then
    if lockBound then ([Ev.release], pending)
    else ([], Except.error (Exc.unboundLocal ("lock")))
  else ([], pending)

/-- Model of merge_changes (update.py lines 53-76): try body, except clause
for CalledProcessError, then the finally block. -/
def merge_changes (pkg : Package) (futureResult : Except Exc ProcResult)
    (commit keep_going : Bool) (worktree branch : String)
    (parse : String → Option (List Change)) (gitOk : Nat → Bool) :
    List Ev × Except Exc Unit :=
  let t := mergeTry pkg futureResult commit worktree branch parse gitOk
  let x :=
    match t.2.2 with
    | Except.ok _ => ([], Except.ok ())
    | Except.error e => mergeExcept pkg keep_going e
  let f := mergeFinally pkg commit t.2.1 x.2
  (t.1 ++ x.1 ++ f.1, f.2)

/-- Full handling of one package: the worker runs run_update_script and the
coordinator then runs merge_changes on its future. The trace is the
concatenation of both event lists. -/
def handlePackage (pkg : Package) (commit keep_going : Bool)
    (worktree branch : String) (execOk : Bool) (execOut : String)
    (parse : String → Option (List Change)) (gitOk : Nat → Bool) :
    List Ev × Except Exc Unit :=
  let r := run_update_script pkg commit execOk execOut
  let m := merge_changes pkg r.2 commit keep_going worktree branch parse gitOk
  (r.1 ++ m.1, m.2)

/-- Number of lock acquisitions in a trace. -/
def acquires (evs : List Ev) : Nat :=
  evs.countP (fun e => decide (e = Ev.acquire))

/-- Number of lock releases in a trace. -/
def releases (evs : List Ev) : Nat :=
  evs.countP (fun e => decide (e = Ev.release))

/-- Exception carried by an Except outcome, if any. -/
def excResult : Except Exc Unit → Option Exc
  | Except.ok _ => none
  | Except.error e => some e

/-- Sample commit-capable package. -/
def pkgA : Package := Package.mk ("pkgA") ("pkgA") [("commit")]

/-- Handling of pkgA in a commit-enabled keep-going run whose update script
exits non-zero with captured output boom. -/
def c1run : List Ev × Except Exc Unit :=
  handlePackage pkgA true true ("wt") ("br") false ("boom")
    (fun _ => none) (fun _ => true)

/-- C1: for a commit-capable package in a commit-enabled run whose update
process exits non-zero, the workspace guard is acquired once but never
released: the finally block references the unassigned local lock and raises
UnboundLocalError instead of releasing, contradicting the claim that the
guard is released exactly once under every outcome. -/
theorem C1_guard_not_released_on_exec_failure :
    acquires c1run.1 = 1 ∧ releases c1run.1 = 0 ∧
      excResult c1run.2 = some (Exc.unboundLocal ("lock")) := by
  decide

/-- Execution environment of a whole run: the file argument sys.argv[1] and
the JSON load of the named file, the confirmation line read from stdin, the
per-package update script outcomes (execOk and execOut indexed by position
in the package list), the JSON decoder for captured output, the completion
order of the futures as observed by as_completed, the worker slot that ran
each package, the git command outcomes per package, and the temporary
directory name chosen for each worker slot. -/
structure Env where
  argv1 : String
  load : String → List Package
  confirm : String
  execOk : Nat → Bool
  execOut : Nat → String
  parse : String → Option (List Change)
  order : List Nat
  assign : Nat → Nat
  gitOk : Nat → Nat → Bool
  tmp : Nat → String

/-- Branch name created by make_worktree (update.py line 37). -/
def branchName (env : Env) (i : Nat) : String :=
  "update-" ++ env.tmp i

/-- Worktree checkout directory created by make_worktree (update.py line
38). -/
def slotDir (env : Env) (i : Nat) : String :=
  env.tmp i ++ "/nixpkgs"

/-- Final process outcome: a normal interpreter exit with a numeric status,
or an uncaught exception terminating the process with a traceback. -/
inductive ExitStatus
  | exited (code : Nat)
  | crashed (e : Exc)
deriving DecidableEq, Repr

/-- Model of the as_completed loop of main (update.py lines 102-105):
process each completed future in completion order through merge_changes.
The loop stops at the first call whose exception escapes merge_changes
(SystemExit from a non-keep-going failure, or an uncaught error); the
processed packages and their merge traces are returned together with that
exception, if any. An index outside the package list cannot arise from real
futures and is skipped. -/
def mergeLoopRun (env : Env) (commit keep_going : Bool)
    (pkgs : List Package) : List Nat → List (Nat × List Ev) × Option Exc
  | [] => ([], none)
  | i :: rest =>
    match pkgs[i]? with
    | none => mergeLoopRun env commit keep_going pkgs rest
    | some pkg =>
      let fut := (run_update_script pkg commit (env.execOk i)
        (env.execOut i)).2
      let m := merge_changes pkg fut commit keep_going
        (slotDir env (env.assign i)) (branchName env (env.assign i))
        env.parse (env.gitOk i)
      match m.2 with
      | Except.ok _ =>
        let r := mergeLoopRun env commit keep_going pkgs rest
        ((i, m.1) :: r.1, r.2)
      | Except.error e => ([(i, m.1)], some e)

/-- Observable outcome of one whole run: status lines printed outside the
merge traces, the loaded package list (line 80), the packages submitted to
the executor, the git setup commands of workspace creation, the processed
packages with their merge traces, the exception that aborted the merge loop
if any, the indices whose update scripts actually executed, the git cleanup
commands that ran on shutdown, and the final process exit. -/
structure RunOutcome where
  notices : List String
  loaded : List Package
  dispatched : List Package
  setup : List GitCmd
  merged : List (Nat × List Ev)
  mergeError : Option Exc
  executed : List Nat
  cleanup : List GitCmd
  exit : ExitStatus
deriving DecidableEq, Repr

/-- Model of main plus the top-level handler (update.py lines 78-129). The
packages parameter of main is shadowed immediately by the json.load of the
file named by sys.argv[1] (lines 79-80). A non-empty confirmation line
prints Aborting! and raises SystemExit 130 before any workspace is created
or any package submitted (lines 110-112); the top-level handler re-raises
the carried code. Otherwise: with commit, one worktree per worker slot is
created (line 95); all packages are submitted (lines 99-100); the merge
loop processes completions in order. Every submitted update script runs to
completion: the executor context exit calls shutdown with wait=True and no
future cancellation, which also runs the still-queued tasks, and the
cancel calls in the top-level handler happen only after that shutdown, so
executed equals the whole range (this model assumes the run does not
deadlock on an unreleased guard, true in every configuration the theorems
below address). The worktree contexts were entered through an ExitStack;
their generator bodies have no try/finally around the yield, so when the
merge loop ended with an exception the statements after the yield are
skipped: no git worktree remove and no git branch delete runs (only the
enclosing temporary directories are deleted); on a normal loop exit the two
git cleanup commands run per slot, in reverse slot order. With no
exception, main then prints Packages updated! and raises SystemExit with no
code, which the handler turns into exit status 0; a SystemExit from the
loop exits with its code; any other exception is uncaught (the handler
catches only KeyboardInterrupt and SystemExit) and crashes the process. -/
def mainRun (env : Env) (max_workers : Nat) (keep_going commit : Bool)
    (packages : List Package) : RunOutcome :=
  let pkgs := env.load env.argv1
  let pre := ["Going to be running update for following packages:"]
    ++ pkgs.map (fun p => " - " ++ p.name)
  if env.confirm = "" then
    let setup : List GitCmd :=
      if commit then
        (List.range max_workers).map
          (fun i => GitCmd.worktreeAdd (branchName env i) (slotDir env i))
      else []
    let loop := mergeLoopRun env commit keep_going pkgs env.order
    let cleanup : List GitCmd :=
      match loop.2 with
      | none =>
        if commit then
          ((List.range max_workers).reverse).flatMap
            (fun i => [GitCmd.worktreeRemove (slotDir env i),
                       GitCmd.branchDelete (branchName env i)])
        else []
      | some _ => []
    let exitSt : ExitStatus :=
      match loop.2 with
      | none => ExitStatus.exited 0
      | some (Exc.systemExit c) => ExitStatus.exited (c.getD 0)
      | some e => ExitStatus.crashed e
    { notices := pre ++ ["Running update for:"] ++
        (match loop.2 with
         | none => ["Packages updated!"]
         | some _ => []),
      loaded := pkgs, dispatched := pkgs, setup := setup,
      merged := loop.1, mergeError := loop.2,
      executed := List.range pkgs.length, cleanup := cleanup,
      exit := exitSt }
  else
    { notices := pre ++ ["Aborting!"], loaded := pkgs, dispatched := [],
      setup := [], merged := [], mergeError := none, executed := [],
      cleanup := [], exit := ExitStatus.exited 130 }

/-- Log files written during the processed merges of a run. -/
def logsIn (out : RunOutcome) : List String :=
  (out.merged.flatMap (fun m => m.2)).filterMap
    (fun e => match e with
      | Ev.writeLog f _ => some f
      | _ => none)

/-- Trace has no git command at all. -/
def noGitEv (evs : List Ev) : Bool :=
  evs.all (fun e => match e with
    | Ev.git _ => false
    | _ => true)

/-- Event is a git cherry-pick invocation. -/
def isPickEv : Ev → Bool
  | Ev.git (GitCmd.cherryPick _ _) => true
  | _ => false

/-- Event is a git commit invocation. -/
def isCommitEv : Ev → Bool
  | Ev.git (GitCmd.commit _ _) => true
  | _ => false

/-- Ordering property: no commit is issued after any cherry-pick, that is,
every commit of the trace precedes every cherry-pick. -/
def noCommitAfterPick (evs : List Ev) : Bool :=
  (evs.dropWhile (fun e => !isPickEv e)).all (fun e => !isCommitEv e)

/-- Message of a git commit invocation event, none for any other event. -/
def commitMsgOf : Ev → Option String
  | Ev.git (GitCmd.commit m _) => some m
  | _ => none

/-- Commit messages of the git commit invocations of a trace, in order. -/
def commitMsgs (evs : List Ev) : List String :=
  evs.filterMap commitMsgOf

/-- Environment with two plain packages a and b where the update script of
a exits non-zero and the one of b succeeds, completions observed in
submission order. -/
def envAB : Env :=
  { argv1 := "packages.json",
    load := fun _ => [Package.mk ("a") ("a") [], Package.mk ("b") ("b") []],
    confirm := "",
    execOk := fun i => decide (i = 1),
    execOut := fun _ => "out",
    parse := fun _ => none,
    order := [0, 1],
    assign := fun _ => 0,
    gitOk := fun _ _ => true,
    tmp := fun _ => "tmp" }

/-- Keep-going run over envAB without commit integration. -/
def c2run : RunOutcome := mainRun envAB 1 true false []

/-- C2 refutation at a concrete input: with keep going enabled and the
update of package a failing, both packages are processed and the failure of
a is logged, yet the process exit code is 0, because line 109 calls
sys.exit() with no argument and the top-level handler re-raises that code;
the claim requires a non-zero exit code. -/
theorem C2_exit_zero_despite_failure :
    c2run.exit = ExitStatus.exited 0 ∧
      c2run.merged.map Prod.fst = [0, 1] ∧
      logsIn c2run = ["a.log"] := by
  decide

/-- Non-keep-going run over envAB without commit integration. -/
def c5run : RunOutcome := mainRun envAB 1 false false []

/-- C5 refutation at a concrete input: after the failure of package a with
keep going disabled, package b still executes to completion (the executor
shutdown inside the with statement waits for and runs every submitted task,
and the cancel calls of the top-level handler come only afterwards), yet b
is never processed by the merge loop and no log is written for it; the
claim requires b either never to start or to be logged. -/
theorem C5_pending_package_still_runs_unlogged :
    c5run.executed = [0, 1] ∧
      c5run.merged.map Prod.fst = [0] ∧
      logsIn c5run = ["a.log"] ∧
      c5run.exit = ExitStatus.exited 1 := by
  decide

/-- Environment with a single plain package whose update script fails. -/
def envFail1 : Env :=
  { argv1 := "packages.json",
    load := fun _ => [Package.mk ("a") ("a") []],
    confirm := "",
    execOk := fun _ => false,
    execOut := fun _ => "out",
    parse := fun _ => none,
    order := [0],
    assign := fun _ => 0,
    gitOk := fun _ _ => true,
    tmp := fun _ => "tmp" }

/-- Commit-enabled non-keep-going run over envFail1. -/
def c6run : RunOutcome := mainRun envFail1 1 false true []

/-- C6 refutation at a concrete input: a workspace is created, the only
package fails, the resulting SystemExit(1) propagates through the worktree
contexts, and because make_worktree has no try/finally around its yield the
statements after the yield never run: neither git worktree remove nor git
branch delete is invoked, so cleanup is not unconditional. -/
theorem C6_cleanup_skipped_on_failure :
    c6run.setup = [GitCmd.worktreeAdd ("update-tmp") ("tmp/nixpkgs")] ∧
      c6run.cleanup = [] ∧
      c6run.exit = ExitStatus.exited 1 := by
  decide

/-- Environment with a single commit-capable package whose update script
succeeds but whose captured output is not parseable as change records. -/
def envBadJson : Env :=
  { argv1 := "packages.json",
    load := fun _ => [pkgA],
    confirm := "",
    execOk := fun _ => true,
    execOut := fun _ => "notjson",
    parse := fun _ => none,
    order := [0],
    assign := fun _ => 0,
    gitOk := fun _ _ => true,
    tmp := fun _ => "tmp" }

/-- Commit-enabled keep-going run over envBadJson. -/
def c4run : RunOutcome := mainRun envBadJson 1 true true []

/-- C4 refutation at a concrete input: the JSONDecodeError raised by parsing
the captured output is not a CalledProcessError, so the except clause of
merge_changes does not catch it, no log file is written, and the exception
propagates uncaught (the top-level handler catches only KeyboardInterrupt
and SystemExit), crashing the whole run rather than being reported as a
failure of that package. -/
theorem C4_parse_failure_crashes_run :
    c4run.exit = ExitStatus.crashed Exc.jsonDecodeError ∧
      logsIn c4run = [] := by
  decide

/-- Two sample change records. -/
def chgX : Change := Change.mk ("pkgs.a") ("1.0") ("1.1") [("fa")]

/-- Second sample change record. -/
def chgY : Change := Change.mk ("pkgs.b") ("2.0") ("2.1") [("fb")]

/-- Git trace of commit_changes on two change records with every git
command succeeding. -/
def c3trace : List Ev :=
  (commit_changes ("wt") ("br") ("out")
    (fun _ => some [chgX, chgY]) (fun _ => true)).1

/-- C3 refutation at a concrete input: with two change records, the trace
of commit_changes contains a cherry-pick before the second commit, because
line 51 runs the cherry-pick inside the per-change loop; the claim requires
every reapply to happen only after all records have been committed. -/
theorem C3_pick_interleaved_with_commits :
    noCommitAfterPick c3trace = false := by
  decide

/-- Per-change event triple issued by the loop of commit_changes: stage the
listed files in the worktree, commit with the formatted message in the
worktree, cherry-pick the worktree branch in the repository root. -/
def changeCmds (wt br : String) (c : Change) : List Ev :=
  [Ev.git (GitCmd.add c.files (some wt)),
   Ev.git (GitCmd.commit (commitMessage c) (some wt)),
   Ev.git (GitCmd.cherryPick br none)]

/-- When every git command succeeds, commitLoop emits exactly the triple of
commands for each change, in list order, and succeeds. -/
theorem commitLoop_all_ok (wt br : String) (gitOk : Nat → Bool)
    (hg : ∀ n, gitOk n = true) :
    ∀ (changes : List Change) (n : Nat),
      commitLoop wt br gitOk changes n =
        (changes.flatMap (changeCmds wt br), Except.ok ()) := by
  intro changes
  induction changes with
  | nil => intro n; rfl
  | cons c rest ih =>
    intro n
    simp [commitLoop, hg, ih (n + 3), changeCmds]

/-- When the captured output parses and every git command succeeds,
commit_changes emits exactly the per-change triples in order and succeeds. -/
theorem commit_changes_all_ok (wt br out : String)
    (parse : String → Option (List Change)) (gitOk : Nat → Bool)
    (changes : List Change) (hparse : parse out = some changes)
    (hg : ∀ n, gitOk n = true) :
    commit_changes wt br out parse gitOk =
      (changes.flatMap (changeCmds wt br), Except.ok ()) := by
  unfold commit_changes
  rw [hparse]
  exact commitLoop_all_ok wt br gitOk hg changes 0

/-- C3 corrected: for a successful commit-capable package, integration is
interleaved per record, not deferred: for each change record in order, the
files are staged and committed in the workspace branch and that new branch
tip is immediately cherry-picked onto the branch the run started from (the
cherry-pick runs with no working directory override, hence in the
repository root), before the next record is committed. -/
theorem C3_amended_interleaved_cherry_pick (wt br out : String)
    (parse : String → Option (List Change)) (gitOk : Nat → Bool)
    (changes : List Change) (hparse : parse out = some changes)
    (hg : ∀ n, gitOk n = true) :
    commit_changes wt br out parse gitOk =
      (changes.flatMap (changeCmds wt br), Except.ok ()) :=
  commit_changes_all_ok wt br out parse gitOk changes hparse hg

/-- Witness for the amended C3 at a concrete input: one change record
produces stage, commit and immediate cherry-pick. -/
theorem C3_amended_interleaved_cherry_pick_witness :
    commit_changes ("wt") ("br") ("out") (fun _ => some [chgX])
        (fun _ => true) =
      ([Ev.git (GitCmd.add [("fa")] (some ("wt"))),
        Ev.git (GitCmd.commit ("pkgs.a: 1.0 → 1.1") (some ("wt"))),
        Ev.git (GitCmd.cherryPick ("br") none)], Except.ok ()) :=
  (C3_amended_interleaved_cherry_pick ("wt") ("br") ("out")
    (fun _ => some [chgX]) (fun _ => true) [chgX] rfl (fun _ => rfl)).trans
    (by decide)

/-- Commit messages extracted from the flattened per-change triples are
exactly the formatted messages of the changes, in order. -/
theorem commitMsgs_changeCmds (wt br : String) (changes : List Change) :
    commitMsgs (changes.flatMap (changeCmds wt br)) =
      changes.map commitMessage := by
  induction changes with
  | nil => rfl
  | cons c rest ih =>
    simp only [List.flatMap_cons, commitMsgs, List.filterMap_append] at ih ⊢
    rw [ih]
    rfl

/-- C7: for a successful commit-capable package whose output parses to a
list of change records and whose git commands all succeed, the sequence of
commit messages in the package trace is exactly the formatted message of
each record in order, so in particular the number of commits equals the
number of parsed records. -/
theorem C7_commit_count_and_messages (pkg : Package) (keep_going : Bool)
    (wt br out : String) (parse : String → Option (List Change))
    (gitOk : Nat → Bool) (changes : List Change)
    (hcap : commitCapable pkg true = true)
    (hparse : parse out = some changes)
    (hg : ∀ n, gitOk n = true) :
    commitMsgs
        (handlePackage pkg true keep_going wt br true out parse gitOk).1 =
        changes.map commitMessage ∧
      (commitMsgs
        (handlePackage pkg true keep_going wt br true out parse gitOk).1).length
        = changes.length := by
  have hmain : commitMsgs
      (handlePackage pkg true keep_going wt br true out parse gitOk).1 =
      changes.map commitMessage := by
    simp only [handlePackage, run_update_script, merge_changes, mergeTry,
      mergeFinally, hcap, if_true,
      commit_changes_all_ok wt br out parse gitOk changes hparse hg]
    simp only [commitMsgs, List.filterMap_append]
    rw [← commitMsgs_changeCmds wt br changes]
    simp [commitMsgs, commitMsgOf]
  exact ⟨hmain, by rw [hmain]; simp⟩

/-- Witness for C7 at a concrete input: two change records give exactly the
two formatted commit messages. -/
theorem C7_commit_count_and_messages_witness :
    commitMsgs
        (handlePackage pkgA true true ("wt") ("br") true ("out")
          (fun _ => some [chgX, chgY]) (fun _ => true)).1 =
        ["pkgs.a: 1.0 → 1.1", "pkgs.b: 2.0 → 2.1"] ∧
      commitCapable pkgA true = true :=
  ⟨((C7_commit_count_and_messages pkgA true ("wt") ("br") ("out")
      (fun _ => some [chgX, chgY]) (fun _ => true) [chgX, chgY]
      (by decide) rfl (fun _ => rfl)).1).trans (by decide),
   by decide⟩

/-- C4 corrected: for a commit-capable package in a commit-enabled run
whose update succeeded but whose captured output does not parse, the
JSONDecodeError escapes merge_changes uncaught, regardless of the keep
going flag: the whole merge trace of the package is just the guard release
from the finally block, with no error banner and no log file, and the
outcome is the propagating JSONDecodeError (which the top level does not
catch either, so the run crashes). -/
theorem C4_amended_parse_failure_propagates (pkg : Package)
    (keep_going : Bool) (wt br out : String)
    (parse : String → Option (List Change)) (gitOk : Nat → Bool)
    (hcap : commitCapable pkg true = true)
    (hparse : parse out = none) :
    merge_changes pkg (Except.ok (ProcResult.mk out)) true keep_going wt br
        parse gitOk =
      ([Ev.release], Except.error Exc.jsonDecodeError) := by
  simp [merge_changes, mergeTry, mergeExcept, mergeFinally, commit_changes,
    hcap, hparse]

/-- Witness for the amended C4 at a concrete input. -/
theorem C4_amended_parse_failure_propagates_witness :
    merge_changes pkgA (Except.ok (ProcResult.mk ("notjson"))) true true
        ("wt") ("br") (fun _ => none) (fun _ => true) =
      ([Ev.release], Except.error Exc.jsonDecodeError) :=
  C4_amended_parse_failure_propagates pkgA true ("wt") ("br") ("notjson")
    (fun _ => none) (fun _ => true) (by decide) rfl

/-- For a package without the commit feature in play (commit mode off), the
merge of a successful execution, or of a failed execution under keep going,
completes without exception. -/
theorem merge_changes_plain_ok (pkg : Package) (keep_going : Bool)
    (wt br : String) (parse : String → Option (List Change))
    (gitOk : Nat → Bool) (execOk : Bool) (out : String)
    (h : keep_going = true ∨ execOk = true) :
    (merge_changes pkg (run_update_script pkg false execOk out).2 false
        keep_going wt br parse gitOk).2 = Except.ok () := by
  have hcap : commitCapable pkg false = false := by simp [commitCapable]
  cases execOk with
  | true =>
    simp [merge_changes, mergeTry, mergeFinally, run_update_script, hcap]
  | false =>
    have hk : keep_going = true := by
      rcases h with h | h
      · exact h
      · exact absurd h (by simp)
    simp [merge_changes, mergeTry, mergeExcept, mergeFinally,
      run_update_script, hcap, hk]

/-- For a package without the commit feature in play whose execution failed
with keep going disabled, the merge ends in SystemExit(1). -/
theorem merge_changes_plain_fail (pkg : Package) (wt br : String)
    (parse : String → Option (List Change)) (gitOk : Nat → Bool)
    (out : String) :
    (merge_changes pkg (run_update_script pkg false false out).2 false
        false wt br parse gitOk).2 =
      Except.error (Exc.systemExit (some 1)) := by
  have hcap : commitCapable pkg false = false := by simp [commitCapable]
  simp [merge_changes, mergeTry, mergeExcept, mergeFinally,
    run_update_script, hcap]

/-- A failed execution processed by the merge step always writes the log
file named after the short identifier with the captured output, in commit
mode off. -/
theorem merge_changes_plain_logs (pkg : Package) (keep_going : Bool)
    (wt br : String) (parse : String → Option (List Change))
    (gitOk : Nat → Bool) (out : String) :
    Ev.writeLog (pkg.pname ++ ".log") out ∈
      (merge_changes pkg (run_update_script pkg false false out).2 false
        keep_going wt br parse gitOk).1 := by
  have hcap : commitCapable pkg false = false := by simp [commitCapable]
  cases keep_going with
  | true =>
    simp [merge_changes, mergeTry, mergeExcept, mergeFinally,
      run_update_script, hcap]
  | false =>
    simp [merge_changes, mergeTry, mergeExcept, mergeFinally,
      run_update_script, hcap]

/-- With commit mode off, no git command ever appears in a merge trace. -/
theorem merge_changes_plain_noGit (pkg : Package) (keep_going : Bool)
    (wt br : String) (parse : String → Option (List Change))
    (gitOk : Nat → Bool) (execOk : Bool) (out : String) :
    noGitEv (merge_changes pkg (run_update_script pkg false execOk out).2
        false keep_going wt br parse gitOk).1 = true := by
  have hcap : commitCapable pkg false = false := by simp [commitCapable]
  cases execOk with
  | true =>
    simp [merge_changes, mergeTry, mergeExcept, mergeFinally,
      run_update_script, hcap, noGitEv]
  | false =>
    cases keep_going with
    | true =>
      simp [merge_changes, mergeTry, mergeExcept, mergeFinally,
        run_update_script, hcap, noGitEv]
    | false =>
      simp [merge_changes, mergeTry, mergeExcept, mergeFinally,
        run_update_script, hcap, noGitEv]

/-- Step equation of the merge loop when the index has no package. -/
theorem mergeLoopRun_cons_none (env : Env) (c k : Bool)
    (pkgs : List Package) (i : Nat) (rest : List Nat)
    (hg : pkgs[i]? = none) :
    mergeLoopRun env c k pkgs (i :: rest) =
      mergeLoopRun env c k pkgs rest := by
  rw [mergeLoopRun, hg]

/-- Step equation of the merge loop when the merge of the head package
completes without exception. -/
theorem mergeLoopRun_cons_ok (env : Env) (c k : Bool)
    (pkgs : List Package) (i : Nat) (rest : List Nat) (pkg : Package)
    (hg : pkgs[i]? = some pkg)
    (hm : (merge_changes pkg
        (run_update_script pkg c (env.execOk i) (env.execOut i)).2 c k
        (slotDir env (env.assign i)) (branchName env (env.assign i))
        env.parse (env.gitOk i)).2 = Except.ok ()) :
    mergeLoopRun env c k pkgs (i :: rest) =
      ((i, (merge_changes pkg
          (run_update_script pkg c (env.execOk i) (env.execOut i)).2 c k
          (slotDir env (env.assign i)) (branchName env (env.assign i))
          env.parse (env.gitOk i)).1) ::
        (mergeLoopRun env c k pkgs rest).1,
       (mergeLoopRun env c k pkgs rest).2) := by
  rw [mergeLoopRun, hg]
  simp only [hm]

/-- Step equation of the merge loop when the merge of the head package
raises: the loop stops there with that exception. -/
theorem mergeLoopRun_cons_err (env : Env) (c k : Bool)
    (pkgs : List Package) (i : Nat) (rest : List Nat) (pkg : Package)
    (e : Exc) (hg : pkgs[i]? = some pkg)
    (hm : (merge_changes pkg
        (run_update_script pkg c (env.execOk i) (env.execOut i)).2 c k
        (slotDir env (env.assign i)) (branchName env (env.assign i))
        env.parse (env.gitOk i)).2 = Except.error e) :
    mergeLoopRun env c k pkgs (i :: rest) =
      ([(i, (merge_changes pkg
          (run_update_script pkg c (env.execOk i) (env.execOut i)).2 c k
          (slotDir env (env.assign i)) (branchName env (env.assign i))
          env.parse (env.gitOk i)).1)], some e) := by
  rw [mergeLoopRun, hg]
  simp only [hm]

/-- With commit mode off and keep going on, the merge loop never raises:
every valid completion in the order is processed. -/
theorem mergeLoopRun_keep_going (env : Env) (pkgs : List Package) :
    ∀ order : List Nat,
      (mergeLoopRun env false true pkgs order).2 = none ∧
        (mergeLoopRun env false true pkgs order).1.map Prod.fst =
          order.filter (fun i => decide (i < pkgs.length)) := by
  intro order
  induction order with
  | nil => exact ⟨rfl, rfl⟩
  | cons i rest ih =>
    cases hg : pkgs[i]? with
    | none =>
      have hlen : ¬ i < pkgs.length := by
        have := List.getElem?_eq_none_iff.mp hg
        omega
      rw [mergeLoopRun_cons_none env false true pkgs i rest hg]
      simp [ih.1, ih.2, List.filter_cons, hlen]
    | some pkg =>
      have hlen : i < pkgs.length :=
        (List.getElem?_eq_some_iff.mp hg).1
      have hm := merge_changes_plain_ok pkg true
        (slotDir env (env.assign i)) (branchName env (env.assign i))
        env.parse (env.gitOk i) (env.execOk i) (env.execOut i) (Or.inl rfl)
      rw [mergeLoopRun_cons_ok env false true pkgs i rest pkg hg hm]
      simp [ih.1, ih.2, List.filter_cons, hlen]

/-- Every processed entry of the merge loop is the merge trace of the
package at its index. -/
theorem mergeLoopRun_mem_trace (env : Env) (commit keep_going : Bool)
    (pkgs : List Package) :
    ∀ order : List Nat,
      ∀ q ∈ (mergeLoopRun env commit keep_going pkgs order).1,
        ∃ pkg, pkgs[q.1]? = some pkg ∧
          q.2 = (merge_changes pkg
            (run_update_script pkg commit (env.execOk q.1)
              (env.execOut q.1)).2
            commit keep_going (slotDir env (env.assign q.1))
            (branchName env (env.assign q.1)) env.parse (env.gitOk q.1)).1 := by
  intro order
  induction order with
  | nil => intro q hq; simp [mergeLoopRun] at hq
  | cons i rest ih =>
    intro q hq
    cases hg : pkgs[i]? with
    | none =>
      rw [mergeLoopRun_cons_none env commit keep_going pkgs i rest hg] at hq
      exact ih q hq
    | some pkg =>
      cases hr : (merge_changes pkg
          (run_update_script pkg commit (env.execOk i) (env.execOut i)).2
          commit keep_going (slotDir env (env.assign i))
          (branchName env (env.assign i)) env.parse (env.gitOk i)).2 with
      | ok u =>
        rw [mergeLoopRun_cons_ok env commit keep_going pkgs i rest pkg hg
          hr] at hq
        rcases List.mem_cons.mp hq with hq | hq
        · subst hq
          exact ⟨pkg, hg, rfl⟩
        · exact ih q hq
      | error e =>
        rw [mergeLoopRun_cons_err env commit keep_going pkgs i rest pkg e
          hg hr] at hq
        rcases List.mem_cons.mp hq with hq | hq
        · subst hq
          exact ⟨pkg, hg, rfl⟩
        · exact absurd hq (List.not_mem_nil q)

/-- With commit mode off and keep going off, an order consisting of
successful completions followed by a failing one makes the loop process
exactly that prefix and the failure, then abort with SystemExit(1). -/
theorem mergeLoopRun_abort (env : Env) (pkgs : List Package) (i : Nat)
    (pkg : Package) (rest : List Nat)
    (hget : pkgs[i]? = some pkg) (hfail : env.execOk i = false) :
    ∀ pre : List Nat, (∀ j ∈ pre, env.execOk j = true) →
      (mergeLoopRun env false false pkgs (pre ++ i :: rest)).1.map
          Prod.fst =
          pre.filter (fun j => decide (j < pkgs.length)) ++ [i] ∧
        (mergeLoopRun env false false pkgs (pre ++ i :: rest)).2 =
          some (Exc.systemExit (some 1)) := by
  intro pre
  induction pre with
  | nil =>
    intro _
    have hm := merge_changes_plain_fail pkg
      (slotDir env (env.assign i)) (branchName env (env.assign i))
      env.parse (env.gitOk i) (env.execOut i)
    nth_rewrite 2 [← hfail] at hm
    simp only [List.nil_append]
    rw [mergeLoopRun_cons_err env false false pkgs i rest pkg
      (Exc.systemExit (some 1)) hget hm]
    simp
  | cons j pre ih =>
    intro hall
    have hj : env.execOk j = true := hall j (by simp)
    have hrest : ∀ k ∈ pre, env.execOk k = true := by
      intro k hk
      exact hall k (by simp [hk])
    have ihr := ih hrest
    cases hg : pkgs[j]? with
    | none =>
      have hlen : ¬ j < pkgs.length := by
        have := List.getElem?_eq_none_iff.mp hg
        omega
      simp only [List.cons_append]
      rw [mergeLoopRun_cons_none env false false pkgs j (pre ++ i :: rest)
        hg]
      simp [ihr.1, ihr.2, List.filter_cons, hlen]
    | some pkgj =>
      have hlen : j < pkgs.length :=
        (List.getElem?_eq_some_iff.mp hg).1
      have hm := merge_changes_plain_ok pkgj false
        (slotDir env (env.assign j)) (branchName env (env.assign j))
        env.parse (env.gitOk j) (env.execOk j) (env.execOut j) (Or.inr hj)
      simp only [List.cons_append]
      rw [mergeLoopRun_cons_ok env false false pkgs j (pre ++ i :: rest)
        pkgj hg hm]
      simp [ihr.1, ihr.2, List.filter_cons, hlen]

/-- Merged field of a confirmed run is the merge loop output. -/
theorem mainRun_merged (env : Env) (mw : Nat) (kg c : Bool)
    (p : List Package) (h : env.confirm = "") :
    (mainRun env mw kg c p).merged =
      (mergeLoopRun env c kg (env.load env.argv1) env.order).1 := by
  simp [mainRun, h]

/-- Merge loop exception of a confirmed run. -/
theorem mainRun_mergeError (env : Env) (mw : Nat) (kg c : Bool)
    (p : List Package) (h : env.confirm = "") :
    (mainRun env mw kg c p).mergeError =
      (mergeLoopRun env c kg (env.load env.argv1) env.order).2 := by
  simp [mainRun, h]

/-- Exit status of a confirmed run, as a function of the merge loop
exception. -/
theorem mainRun_exit (env : Env) (mw : Nat) (kg c : Bool)
    (p : List Package) (h : env.confirm = "") :
    (mainRun env mw kg c p).exit =
      match (mergeLoopRun env c kg (env.load env.argv1) env.order).2 with
      | none => ExitStatus.exited 0
      | some (Exc.systemExit cc) => ExitStatus.exited (cc.getD 0)
      | some e => ExitStatus.crashed e := by
  simp [mainRun, h]

/-- Every submitted update script of a confirmed run executes. -/
theorem mainRun_executed (env : Env) (mw : Nat) (kg c : Bool)
    (p : List Package) (h : env.confirm = "") :
    (mainRun env mw kg c p).executed =
      List.range (env.load env.argv1).length := by
  simp [mainRun, h]

/-- Setup git commands of a confirmed run. -/
theorem mainRun_setup (env : Env) (mw : Nat) (kg c : Bool)
    (p : List Package) (h : env.confirm = "") :
    (mainRun env mw kg c p).setup =
      (if c then
        (List.range mw).map
          (fun i => GitCmd.worktreeAdd (branchName env i) (slotDir env i))
      else []) := by
  simp [mainRun, h]

/-- Cleanup git commands of a confirmed run, as a function of the merge
loop exception. -/
theorem mainRun_cleanup (env : Env) (mw : Nat) (kg c : Bool)
    (p : List Package) (h : env.confirm = "") :
    (mainRun env mw kg c p).cleanup =
      match (mergeLoopRun env c kg (env.load env.argv1) env.order).2 with
      | none =>
        if c then
          ((List.range mw).reverse).flatMap
            (fun i => [GitCmd.worktreeRemove (slotDir env i),
                       GitCmd.branchDelete (branchName env i)])
        else []
      | some _ => [] := by
  simp [mainRun, h]

/-- C2 corrected: with keep going enabled and commit integration off, a run
in which some package fails still processes every completion — each failed
package having its log written — and every submitted update script runs,
but the final process exit code is 0 (line 109 calls sys.exit() with no
argument and the top-level handler re-raises that missing code as status
0), not the non-zero code the claim requires. -/
theorem C2_amended_keep_going_exit_zero (env : Env) (mw : Nat)
    (p : List Package) (hconfirm : env.confirm = "")
    (hfail : ∃ i ∈ env.order, env.execOk i = false) :
    (mainRun env mw true false p).merged.map Prod.fst =
        env.order.filter
          (fun i => decide (i < (env.load env.argv1).length)) ∧
      (mainRun env mw true false p).exit = ExitStatus.exited 0 ∧
      (mainRun env mw true false p).executed =
        List.range (env.load env.argv1).length ∧
      ∀ q ∈ (mainRun env mw true false p).merged,
        env.execOk q.1 = false →
          ∃ pkg, (env.load env.argv1)[q.1]? = some pkg ∧
            Ev.writeLog (pkg.pname ++ ".log") (env.execOut q.1) ∈ q.2 := by
  have hloop := mergeLoopRun_keep_going env (env.load env.argv1) env.order
  refine ⟨?_, ?_, ?_, ?_⟩
  · rw [mainRun_merged env mw true false p hconfirm]
    exact hloop.2
  · rw [mainRun_exit env mw true false p hconfirm, hloop.1]
  · exact mainRun_executed env mw true false p hconfirm
  · intro q hq hfalse
    rw [mainRun_merged env mw true false p hconfirm] at hq
    obtain ⟨pkg, hpkg, htr⟩ := mergeLoopRun_mem_trace env false true
      (env.load env.argv1) env.order q hq
    refine ⟨pkg, hpkg, ?_⟩
    rw [htr, hfalse]
    exact merge_changes_plain_logs pkg true
      (slotDir env (env.assign q.1)) (branchName env (env.assign q.1))
      env.parse (env.gitOk q.1) (env.execOut q.1)

/-- Witness for the amended C2 at the concrete envAB run: package 0 fails,
both packages are processed, exit code is 0. -/
theorem C2_amended_keep_going_exit_zero_witness :
    (mainRun envAB 1 true false []).merged.map Prod.fst = [0, 1] ∧
      (mainRun envAB 1 true false []).exit = ExitStatus.exited 0 :=
  have h := C2_amended_keep_going_exit_zero envAB 1 [] rfl
    ⟨0, by decide, by decide⟩
  ⟨h.1.trans (by decide), h.2.1⟩

/-- C5 corrected: with keep going disabled and commit integration off, the
first failing completion makes merge_changes raise SystemExit(1): the merge
loop processes exactly the successful prefix of the completion order plus
the failing package, nothing after it is merged or logged, yet every
submitted update script still executes to completion (the executor shutdown
inside the with statement waits for and runs every submitted task, and the
cancel calls of the top-level handler come only after that shutdown, so no
future is ever cancelled and no spawned process terminated), and the
process exits with code 1. -/
theorem C5_amended_abort_still_runs_pending (env : Env) (mw : Nat)
    (p : List Package) (pre rest : List Nat) (i : Nat) (pkg : Package)
    (hconfirm : env.confirm = "")
    (horder : env.order = pre ++ i :: rest)
    (hpre : ∀ j ∈ pre, env.execOk j = true)
    (hget : (env.load env.argv1)[i]? = some pkg)
    (hfail : env.execOk i = false) :
    (mainRun env mw false false p).merged.map Prod.fst =
        pre.filter (fun j => decide (j < (env.load env.argv1).length))
          ++ [i] ∧
      (mainRun env mw false false p).exit = ExitStatus.exited 1 ∧
      (mainRun env mw false false p).executed =
        List.range (env.load env.argv1).length := by
  have habort := mergeLoopRun_abort env (env.load env.argv1) i pkg rest
    hget hfail pre hpre
  refine ⟨?_, ?_, ?_⟩
  · rw [mainRun_merged env mw false false p hconfirm, horder]
    exact habort.1
  · rw [mainRun_exit env mw false false p hconfirm, horder, habort.2]
    rfl
  · exact mainRun_executed env mw false false p hconfirm

/-- Witness for the amended C5 at the concrete envAB run: the failure of
package 0 stops the merge loop at package 0, yet package 1 still executes,
and the process exits with code 1. -/
theorem C5_amended_abort_still_runs_pending_witness :
    (mainRun envAB 1 false false []).merged.map Prod.fst = [0] ∧
      (mainRun envAB 1 false false []).exit = ExitStatus.exited 1 ∧
      (mainRun envAB 1 false false []).executed = [0, 1] :=
  have h := C5_amended_abort_still_runs_pending envAB 1 [] [] [1] 0
    (Package.mk ("a") ("a") []) rfl rfl (by simp) (by decide) (by decide)
  ⟨h.1.trans (by decide), h.2.1, h.2.2.trans (by decide)⟩

/-- The commit loop either succeeds or raises CalledProcessError with no
captured output. -/
theorem commitLoop_outcome (wt br : String) (gitOk : Nat → Bool) :
    ∀ (changes : List Change) (n : Nat),
      (commitLoop wt br gitOk changes n).2 = Except.ok () ∨
        (commitLoop wt br gitOk changes n).2 =
          Except.error (Exc.calledProcessError none) := by
  intro changes
  induction changes with
  | nil => intro n; exact Or.inl rfl
  | cons c rest ih =>
    intro n
    cases h0 : gitOk n with
    | false => right; simp [commitLoop, h0]
    | true =>
      cases h1 : gitOk (n + 1) with
      | false => right; simp [commitLoop, h0, h1]
      | true =>
        cases h2 : gitOk (n + 2) with
        | false => right; simp [commitLoop, h0, h1, h2]
        | true => simpa [commitLoop, h0, h1, h2] using ih (n + 3)

/-- Any exception escaping merge_changes on a future produced by
run_update_script is one of: SystemExit(1) from a non-keep-going failure,
the JSONDecodeError of unparseable output, the AttributeError of decoding
the missing stdout of a failed git command, or the UnboundLocalError of
the unassigned lock. -/
theorem merge_changes_error_classes (pkg : Package) (c k : Bool)
    (wt br out : String) (parse : String → Option (List Change))
    (gitOk : Nat → Bool) (eo : Bool) (e : Exc)
    (h : (merge_changes pkg (run_update_script pkg c eo out).2 c k wt br
        parse gitOk).2 = Except.error e) :
    e = Exc.systemExit (some 1) ∨ e = Exc.jsonDecodeError ∨
      e = Exc.attributeError ("stdout is None") ∨
      e = Exc.unboundLocal ("lock") := by
  cases eo with
  | false =>
    cases hcap : commitCapable pkg c with
    | false =>
      cases k with
      | true =>
        simp [merge_changes, mergeTry, mergeExcept, mergeFinally,
          run_update_script, hcap] at h
      | false =>
        simp [merge_changes, mergeTry, mergeExcept, mergeFinally,
          run_update_script, hcap] at h
        exact Or.inl h.symm
    | true =>
      simp [merge_changes, mergeTry, mergeExcept, mergeFinally,
        run_update_script, hcap] at h
      exact Or.inr (Or.inr (Or.inr h.symm))
  | true =>
    cases hcap : commitCapable pkg c with
    | false =>
      simp [merge_changes, mergeTry, mergeExcept, mergeFinally,
        run_update_script, hcap] at h
    | true =>
      cases hp : parse out with
      | none =>
        simp [merge_changes, mergeTry, mergeExcept, mergeFinally,
          run_update_script, commit_changes, hcap, hp] at h
        exact Or.inr (Or.inl h.symm)
      | some changes =>
        rcases commitLoop_outcome wt br gitOk changes 0 with hcl | hcl
        · simp [merge_changes, mergeTry, mergeExcept, mergeFinally,
            run_update_script, commit_changes, hcap, hp, hcl] at h
        · simp [merge_changes, mergeTry, mergeExcept, mergeFinally,
            run_update_script, commit_changes, hcap, hp, hcl] at h
          exact Or.inr (Or.inr (Or.inl h.symm))

/-- Any exception stopping the merge loop is from the same class. -/
theorem mergeLoopRun_error_classes (env : Env) (c k : Bool)
    (pkgs : List Package) :
    ∀ (order : List Nat) (e : Exc),
      (mergeLoopRun env c k pkgs order).2 = some e →
        e = Exc.systemExit (some 1) ∨ e = Exc.jsonDecodeError ∨
          e = Exc.attributeError ("stdout is None") ∨
          e = Exc.unboundLocal ("lock") := by
  intro order
  induction order with
  | nil => intro e he; simp [mergeLoopRun] at he
  | cons i rest ih =>
    intro e he
    cases hg : pkgs[i]? with
    | none =>
      rw [mergeLoopRun_cons_none env c k pkgs i rest hg] at he
      exact ih e he
    | some pkg =>
      cases hr : (merge_changes pkg
          (run_update_script pkg c (env.execOk i) (env.execOut i)).2 c k
          (slotDir env (env.assign i)) (branchName env (env.assign i))
          env.parse (env.gitOk i)).2 with
      | ok u =>
        rw [mergeLoopRun_cons_ok env c k pkgs i rest pkg hg hr] at he
        exact ih e he
      | error e2 =>
        rw [mergeLoopRun_cons_err env c k pkgs i rest pkg e2 hg hr] at he
        simp at he
        subst he
        exact merge_changes_error_classes pkg c k
          (slotDir env (env.assign i)) (branchName env (env.assign i))
          (env.execOut i) env.parse (env.gitOk i) (env.execOk i) e2 hr

/-- C6 corrected: in a commit-enabled run, the git worktree removal and
branch deletion run for every slot exactly when the run shuts down without
an uncaught exception (exit status 0); whenever the run ends any other way
— the SystemExit(1) of a first failure with keep going disabled, or any
uncaught error — the statements after the yield of make_worktree are
skipped and no git cleanup command runs at all, so cleanup is neither
unconditional nor shielded from propagating. -/
theorem C6_amended_cleanup_only_on_clean_exit (env : Env) (mw : Nat)
    (kg : Bool) (p : List Package) (hconfirm : env.confirm = "") :
    ((mainRun env mw kg true p).exit = ExitStatus.exited 0 →
        (mainRun env mw kg true p).cleanup =
          ((List.range mw).reverse).flatMap
            (fun i => [GitCmd.worktreeRemove (slotDir env i),
                       GitCmd.branchDelete (branchName env i)])) ∧
      ((mainRun env mw kg true p).exit ≠ ExitStatus.exited 0 →
        (mainRun env mw kg true p).cleanup = []) := by
  rw [mainRun_exit env mw kg true p hconfirm,
      mainRun_cleanup env mw kg true p hconfirm]
  cases hl : (mergeLoopRun env true kg (env.load env.argv1) env.order).2 with
  | none =>
    constructor
    · intro _
      simp
    · intro hne
      exact absurd rfl hne
  | some e =>
    have hcls := mergeLoopRun_error_classes env true kg
      (env.load env.argv1) env.order e hl
    constructor
    · intro h0
      exfalso
      rcases hcls with h | h | h | h <;> subst h <;> simp at h0
    · intro _
      rfl

/-- Environment with a single plain package whose update script succeeds. -/
def envOk1 : Env :=
  { argv1 := "packages.json",
    load := fun _ => [Package.mk ("a") ("a") []],
    confirm := "",
    execOk := fun _ => true,
    execOut := fun _ => "out",
    parse := fun _ => none,
    order := [0],
    assign := fun _ => 0,
    gitOk := fun _ _ => true,
    tmp := fun _ => "tmp" }

/-- Witness for the amended C6 at a concrete clean commit-enabled run: the
worktree is removed and its branch deleted. -/
theorem C6_amended_cleanup_only_on_clean_exit_witness :
    (mainRun envOk1 1 true true []).cleanup =
      [GitCmd.worktreeRemove ("tmp/nixpkgs"),
       GitCmd.branchDelete ("update-tmp")] :=
  ((C6_amended_cleanup_only_on_clean_exit envOk1 1 true [] rfl).1
    (by decide)).trans (by decide)

/-- C8: with commit integration disabled, no workspace is ever created, no
cleanup command ever runs, and no git command of any kind appears in any
merge trace, for every environment, worker count and package list. -/
theorem C8_no_workspace_no_git (env : Env) (mw : Nat) (kg : Bool)
    (p : List Package) :
    (mainRun env mw kg false p).setup = [] ∧
      (mainRun env mw kg false p).cleanup = [] ∧
      ((mainRun env mw kg false p).merged.all
        (fun q => noGitEv q.2)) = true := by
  by_cases hc : env.confirm = ""
  · refine ⟨?_, ?_, ?_⟩
    · rw [mainRun_setup env mw kg false p hc]
      rfl
    · rw [mainRun_cleanup env mw kg false p hc]
      cases hl : (mergeLoopRun env false kg (env.load env.argv1)
          env.order).2 with
      | none => simp
      | some e => rfl
    · rw [mainRun_merged env mw kg false p hc]
      rw [List.all_eq_true]
      intro q hq
      obtain ⟨pkg, hpkg, htr⟩ := mergeLoopRun_mem_trace env false kg
        (env.load env.argv1) env.order q hq
      rw [htr]
      exact merge_changes_plain_noGit pkg kg
        (slotDir env (env.assign q.1)) (branchName env (env.assign q.1))
        env.parse (env.gitOk q.1) (env.execOk q.1) (env.execOut q.1)
  · simp [mainRun, hc]

/-- Witness for C8 at a concrete input. -/
theorem C8_no_workspace_no_git_witness :
    (mainRun envAB 1 true false []).setup = [] ∧
      (mainRun envAB 1 true false []).cleanup = [] ∧
      ((mainRun envAB 1 true false []).merged.all
        (fun q => noGitEv q.2)) = true :=
  C8_no_workspace_no_git envAB 1 true []

/-- C9: the packages parameter of main is dead: the loaded list always
comes from the file named by sys.argv[1], the dispatched list (on a
confirmed run) equals that loaded list, and the whole run outcome is
unchanged under any replacement of the parameter. -/
theorem C9_packages_parameter_ignored (env : Env) (mw : Nat) (kg c : Bool)
    (p q : List Package) :
    (mainRun env mw kg c p).loaded = env.load env.argv1 ∧
      (env.confirm = "" →
        (mainRun env mw kg c p).dispatched = env.load env.argv1) ∧
      mainRun env mw kg c p = mainRun env mw kg c q := by
  refine ⟨?_, ?_, rfl⟩
  · by_cases hc : env.confirm = "" <;> simp [mainRun, hc]
  · intro hc
    simp [mainRun, hc]

/-- Witness for C9 at a concrete input: a run invoked with an empty
packages parameter still dispatches the two packages loaded from the file,
and its outcome equals the outcome of the same run invoked with a
different parameter. -/
theorem C9_packages_parameter_ignored_witness :
    (mainRun envAB 1 true false []).dispatched =
        [Package.mk ("a") ("a") [], Package.mk ("b") ("b") []] ∧
      mainRun envAB 1 true false [] = mainRun envAB 1 true false [pkgA] :=
  have h := C9_packages_parameter_ignored envAB 1 true false [] [pkgA]
  ⟨(h.2.1 rfl).trans (by decide), h.2.2⟩

/-- C10: any non-empty confirmation line prints the abort notice as the
last status line and exits with code 130 before any workspace is created
or any package dispatched or merged. -/
theorem C10_nonempty_confirm_aborts (env : Env) (mw : Nat) (kg c : Bool)
    (p : List Package) (h : env.confirm ≠ "") :
    (mainRun env mw kg c p).notices.getLast? = some ("Aborting!") ∧
      (mainRun env mw kg c p).exit = ExitStatus.exited 130 ∧
      (mainRun env mw kg c p).setup = [] ∧
      (mainRun env mw kg c p).dispatched = [] ∧
      (mainRun env mw kg c p).merged = [] := by
  refine ⟨?_, ?_, ?_, ?_, ?_⟩
  · have hx : (mainRun env mw kg c p).notices =
        "Going to be running update for following packages:" ::
          ((env.load env.argv1).map (fun w => " - " ++ w.name) ++
            ["Aborting!"]) := by
      simp [mainRun, h]
    rw [hx, ← List.cons_append, List.getLast?_concat]
  · simp [mainRun, h]
  · simp [mainRun, h]
  · simp [mainRun, h]
  · simp [mainRun, h]

/-- Environment equal to envAB except that the confirmation line is not
empty. -/
def envNo : Env := { envAB with confirm := "no" }

/-- Witness for C10 at a concrete input. -/
theorem C10_nonempty_confirm_aborts_witness :
    (mainRun envNo 1 true false []).notices.getLast? =
        some ("Aborting!") ∧
      (mainRun envNo 1 true false []).exit = ExitStatus.exited 130 ∧
      (mainRun envNo 1 true false []).setup = [] ∧
      (mainRun envNo 1 true false []).dispatched = [] :=
  have h := C10_nonempty_confirm_aborts envNo 1 true false [] (by decide)
  ⟨h.1, h.2.1, h.2.2.1, h.2.2.2.1⟩

end UpdatePy
